import Mathlib

/-!
Verification of messageResource.js
(src/src/main/resources/static/js/messageResource.js).

The file gives a shallow embedding of the library data model and
operations, followed by theorems about them.  JavaScript objects used as
string-keyed dictionaries are modelled as association lists (first match
wins on lookup, in-place overwrite on assignment, append when absent —
exactly the observable behaviour of `obj[k]` reads and writes).  The
injected asynchronous fetch capability (`ajaxFunction`) is modelled by an
explicit list of completion deliveries handed to the completion closure
that `load` installs; the transport itself is out of scope, as the code
treats it as an external collaborator.  Machine strings are Lean
`String`s; truthiness of a JavaScript string is emptiness, truthiness of
an optional argument is `Option` plus emptiness.
-/

namespace MessageResource

/-! ## Association lists modelling JavaScript object property access -/

/-- Reading `m[k]`: the value stored under key `k`, if any. -/
def lookupA {α : Type} : List (String × α) → String → Option α
  | [], _ => none
  | (k', v) :: rest, k => if k' = k then some v else lookupA rest k

/-- Writing `m[k] = v`: overwrite the first binding of `k`, or append one. -/
def setA {α : Type} : List (String × α) → String → α → List (String × α)
  | [], k, v => [(k, v)]
  | (k', v') :: rest, k, v =>
    if k' = k then (k, v) :: rest else (k', v') :: setA rest k v

/-- Reading `m[k]` with a default, modelling `m[k] || d`. -/
def getOrA {α : Type} (m : List (String × α)) (k : String) (d : α) : α :=
  (lookupA m k).getD d

/-- Innermost map `properties[locale][module]` : key → value. -/
abbrev ModuleMap := List (String × String)

/-- Middle map `properties[locale]` : module → key/value map. -/
abbrev LocaleMap := List (String × ModuleMap)

/-- Whole store `properties` : locale → module → key/value map. -/
abbrev Store := List (String × LocaleMap)

/-- Composite read `properties[l][m]` existing (and being a truthy object). -/
def storeHasModule (props : Store) (l m : String) : Bool :=
  ((lookupA props l).bind (fun lm => lookupA lm m)).isSome

/-- Composite read `properties[l][m][k]`. -/
def storeValue (props : Store) (l m k : String) : Option String :=
  (lookupA props l).bind fun lm => (lookupA lm m).bind fun mm => lookupA mm k

/-! ## Constants (source lines 27-28) -/

def DEFAULT_MODULE_NAME : String := "_default"

def DEFAULT_EXTENSION : String := ".properties"

/-- JavaScript `o || d` for an optional string argument: `undefined`, `null`
and the empty string are falsy. -/
def jsOrString (o : Option String) (d : String) : String :=
  match o with
  | some s => if s = "" then d else s
  | none => d

/-! ## defaultFileNameResolver (source lines 46-49)

`(locale && typeof locale === 'string') ? module + '_' + locale : module`.
The locale parameter is the possibly-absent "file locale", hence `Option`. -/

def defaultFileNameResolver (module : String) (locale : Option String) : String :=
  match locale with
  | some l => if l ≠ "" then module ++ "_" ++ l else module
  | none => module

/-! ## getValidLocale (source lines 104-114)

Falsy / non-string locales are replaced by the current locale, then the
FIRST hyphen (string-pattern `replace`) becomes an underscore. -/

/-- JavaScript replace with a string pattern (first occurrence only): a hyphen becomes an underscore. -/
def replaceFirstHyphen : List Char → List Char
  | [] => []
  | c :: rest => if c = '-' then '_' :: rest else c :: replaceFirstHyphen rest

def getValidLocale (locale : Option String) (currentLocale : String) : String :=
  String.mk (replaceFirstHyphen (jsOrString locale currentLocale).data)

/-! ## isModuleLoaded (source lines 123-130) -/

def isModuleLoaded (props : Store) (module locale : String) : Bool :=
  if module ≠ "" ∧ locale ≠ "" then storeHasModule props locale module else false

/-! ## Line parsing inside saveFile (source lines 72-93) -/

/-- JavaScript `String.prototype.trim` over the whitespace characters the
model covers (space, tab, CR, LF; JavaScript additionally trims some
non-ASCII Unicode whitespace, which the inputs modelled here do not use). -/
def trimChars (cs : List Char) : List Char :=
  ((cs.dropWhile Char.isWhitespace).reverse.dropWhile Char.isWhitespace).reverse

/-- Characters that `.` does not match and that end `$`-anchored suffixes in
a JavaScript regex: the ECMAScript LineTerminator set. -/
def isJsLineTerminator (c : Char) : Bool :=
  c = '\n' || c = '\r' || c = ' ' || c = ' '

/-- Engine for `line.match(/([^=]*)=(.*)$/)`.  The match succeeds at the
first `=` whose entire suffix is free of line terminators (`.` cannot
cross one and `$` only matches at the very end without the `m` flag); the
first capture group is then everything after the previous `=` (or the
start), the second the suffix.  `acc` holds the reversed candidate first
group. -/
def jsLineMatchAux (acc : List Char) : List Char → Option (List Char × List Char)
  | [] => none
  | c :: rest =>
    if c = '=' then
      if rest.all (fun d => !isJsLineTerminator d) then some (acc.reverse, rest)
      else jsLineMatchAux [] rest
    else jsLineMatchAux (c :: acc) rest

def jsLineMatch (t : List Char) : Option (List Char × List Char) :=
  jsLineMatchAux [] t

/-- Outcome of the per-line forEach body in saveFile. `skip` covers
blank lines and comments, `invalid` the invalid-line log path,
`entry` a stored key/value pair. -/
inductive LineResult where
  | skip : LineResult
  | invalid : LineResult
  | entry : String → String → LineResult
deriving DecidableEq

def parseLine (line : String) : LineResult :=
  let t := trimChars line.data
  if t = [] then LineResult.skip
  else if t.head? = some '#' then LineResult.skip
  else
    match jsLineMatch t with
    | some (k, v) =>
      if k = [] then LineResult.invalid
      else LineResult.entry (String.mk (trimChars k))
        (String.mk (if v = [] then [] else trimChars v))
    | none => LineResult.invalid

/-- Effect of one forEach iteration on `curModuleMap`. -/
def processLine (m : ModuleMap) (line : String) : ModuleMap :=
  match parseLine line with
  | LineResult.entry k v => setA m k v
  | _ => m

/-- Splitting on every newline, keeping empty pieces, as the split call in saveFile does. -/
def splitNl : List Char → List (List Char)
  | [] => [[]]
  | c :: rest =>
    if c = '\n' then [] :: splitNl rest
    else
      match splitNl rest with
      | [] => [[c]]
      | l :: ls => (c :: l) :: ls

/-! ## saveFile (source lines 59-94)

The `text` argument is the value the fetch callback received, already
coerced by `text = '' + text`; only the empty string is falsy after the
coercion.  Note that `properties[locale][module]` is created *before* any
line is parsed, so the module entry exists afterwards even when no line
stores anything. -/

def saveFile (text : String) (module locale : String) (props : Store) : Store :=
  if text = "" then props
  else
    let localeMap := getOrA props locale []
    let curModuleMap := getOrA localeMap module []
    let linesArray := (splitNl text.data).map String.mk
    let newMap := linesArray.foldl processLine curModuleMap
    setA props locale (setA localeMap module newMap)

/-! ## convertUnicodeString (source lines 138-143)

`str.replace(/\\u[\dA-Fa-f]{4}/g, ...)`: non-overlapping left-to-right
scan; each backslash-u plus four hex digits becomes
`String.fromCharCode(parseInt(hex, 16))`.  (For surrogate code units the
JavaScript result is a lone UTF-16 unit, which Lean strings cannot hold;
`Char.ofNat` is used, which agrees with it on scalar values.) -/

def isHexDigitJS (c : Char) : Bool :=
  c.isDigit || ('A' ≤ c && c ≤ 'F') || ('a' ≤ c && c ≤ 'f')

def hexDigitVal (c : Char) : Nat :=
  if c.isDigit then c.toNat - '0'.toNat
  else if 'a' ≤ c && c ≤ 'f' then c.toNat - 'a'.toNat + 10
  else c.toNat - 'A'.toNat + 10

def convertUnicodeAux : List Char → List Char
  | '\\' :: 'u' :: a :: b :: c :: d :: rest =>
    if isHexDigitJS a && isHexDigitJS b && isHexDigitJS c && isHexDigitJS d then
      Char.ofNat (((hexDigitVal a * 16 + hexDigitVal b) * 16 + hexDigitVal c) * 16
          + hexDigitVal d) :: convertUnicodeAux rest
    else
      -- no match at the backslash; the scan advances one position, and since
      -- a match must begin with a backslash, the following 'u' also passes
      -- through unchanged before scanning resumes
      '\\' :: 'u' :: convertUnicodeAux (a :: b :: c :: d :: rest)
  | c :: rest => c :: convertUnicodeAux rest
  | [] => []

def convertUnicodeString (s : String) : String :=
  String.mk (convertUnicodeAux s.data)

/-! ## log (source lines 152-159) as emitted events -/

inductive LogEvent where
  | console : String → LogEvent
  | alert : String → LogEvent
deriving DecidableEq

def logEvents (debugMode : Bool) (msg : String) (doAlert : Bool) : List LogEvent :=
  (if debugMode then [LogEvent.console ("messageResource.js : " ++ msg)] else [])
    ++ (if doAlert then [LogEvent.alert ("messageResource.js : " ++ msg)] else [])

/-! ## Module-level state (source lines 26-36)

The closure variables of the IIFE.  The injected fetch capability
(`ajaxFunction`) is not part of the pure state: its completions are
modelled explicitly below.  Before `init` runs, `filePath`,
`fileExtension` and `fileNameResolver` are `undefined` in the source;
they are only ever read on paths guarded by `validConfiguration`, so the
placeholder values in `initialState` are never observable. -/

structure MRState where
  properties : Store
  filePath : String
  fileExtension : String
  defaultLocale : String
  currentLocale : String
  fileNameResolver : String → Option String → String
  validConfiguration : Bool
  debugMode : Bool

def initialState : MRState :=
  { properties := []
    filePath := ""
    fileExtension := ""
    defaultLocale := "en_US"
    currentLocale := "en_US"
    fileNameResolver := defaultFileNameResolver
    validConfiguration := false
    debugMode := false }

/-- The `config` object accepted by `init`; absent keys are `none`. -/
structure InitConfig where
  filePath : Option String := none
  fileExtension : Option String := none
  defaultLocale : Option String := none
  fileNameResolver : Option (String → Option String → String) := none
  debugMode : Option Bool := none

/-! ## init (source lines 205-223) -/

def init (st : MRState) (config : InitConfig) : MRState :=
  let fp0 := jsOrString config.filePath ""
  let fp := if fp0 ≠ "" ∧ fp0.back ≠ '/' then fp0 ++ "/" else fp0
  let ext0 := jsOrString config.fileExtension DEFAULT_EXTENSION
  let ext := if ext0.front ≠ '.' then "." ++ ext0 else ext0
  let dl := getValidLocale config.defaultLocale st.currentLocale
  { st with
    filePath := fp
    fileExtension := ext
    defaultLocale := dl
    currentLocale := dl
    fileNameResolver := config.fileNameResolver.getD defaultFileNameResolver
    debugMode := config.debugMode.getD false
    validConfiguration := true }

/-! ## setCurrentLocale (source lines 234-238) -/

def setCurrentLocale (st : MRState) (locale : Option String) : MRState :=
  match locale with
  | some l => if l ≠ "" then { st with currentLocale := l } else st
  | none => st

/-! ## get (source lines 329-345) -/

def get (st : MRState) (key : String) (module : Option String)
    (locale : Option String) (defaultValue : Option String) : String :=
  let value := jsOrString defaultValue key
  let validModule := jsOrString module DEFAULT_MODULE_NAME
  let validLocale := getValidLocale locale st.currentLocale
  let value :=
    if isModuleLoaded st.properties validModule validLocale then
      let moduleObj := getOrA (getOrA st.properties validLocale []) validModule []
      match lookupA moduleObj key with
      | some v => v
      | none => value
    else value
  convertUnicodeString value

/-! ## load (source lines 261-315) -/

/-- The `module` argument: a single (possibly absent/empty, hence falsy)
name, or an array of names. -/
inductive ModuleArg where
  | one : Option String → ModuleArg
  | many : List String → ModuleArg

/-- What the fetch capability hands to the completion callback of
`ajaxGet` (source lines 177-185): the response text on status 200, the
numeric status otherwise. -/
inductive AjaxResult where
  | success : String → AjaxResult
  | failure : Nat → AjaxResult

/-- The coercion `text = '' + text` at the top of `saveFile`: response
text is passed through, a numeric status becomes its decimal digits. -/
def coerceResponse : AjaxResult → String
  | AjaxResult.success t => t
  | AjaxResult.failure status => Nat.repr status

/-- Computation `fileLocale = (validLocale === defaultLocale) ? locale : validLocale`
(source line 276) — note `locale` here is the RAW argument. -/
def fileLocaleOf (st : MRState) (locale : Option String) : Option String :=
  if getValidLocale locale st.currentLocale = st.defaultLocale then locale
  else some (getValidLocale locale st.currentLocale)

/-- The `modulesToLoad` array built by source lines 278-290. -/
def modulesToLoadOf (st : MRState) (module : ModuleArg) (validLocale : String) :
    List String :=
  match module with
  | ModuleArg.many names =>
    names.filter (fun m => m ≠ "" && !(isModuleLoaded st.properties m validLocale))
  | ModuleArg.one name =>
    let validModule := jsOrString name DEFAULT_MODULE_NAME
    if isModuleLoaded st.properties validModule validLocale then []
    else [validModule]

/-- Everything observable from the synchronous part of one `load` call:
the state as left behind, the fetch requests issued (module name paired
with the url handed to the fetch capability), how many times the callback
ran synchronously, and the log/alert events. -/
structure LoadOutcome where
  state : MRState
  requests : List (String × String)
  callbackCalls : Nat
  logs : List LogEvent

def load (st : MRState) (module : ModuleArg) (locale : Option String) :
    LoadOutcome :=
  if st.validConfiguration = false then
    { state := st
      requests := []
      callbackCalls := 0
      logs := logEvents st.debugMode
        "Invalid configuration - Invoke init method with proper configuration" true }
  else
    let validLocale := getValidLocale locale st.currentLocale
    let fileLocale := fileLocaleOf st locale
    let modulesToLoad := modulesToLoadOf st module validLocale
    if modulesToLoad.isEmpty then
      { state := st, requests := [], callbackCalls := 1, logs := [] }
    else
      let props := setA st.properties validLocale (getOrA st.properties validLocale [])
      { state := { st with properties := props }
        requests := modulesToLoad.map (fun modName =>
          (modName, st.filePath ++ st.fileNameResolver modName fileLocale
            ++ st.fileExtension))
        callbackCalls := 0
        logs := [] }

/-! ## Fetch completions (source lines 299-314)

Each issued fetch eventually invokes the closure
`function(text){ saveFile(...); filesLoadedCount += 1; if (...) callback(); }`
exactly once, in whatever order the capability delivers.  A pending load
is the shared mutable data those closures touch; `deliverOne` is one
closure invocation with the value the capability delivered. -/

structure PendingLoad where
  store : Store
  filesLoadedCount : Nat
  callbackCalls : Nat

def deliverOne (validLocale : String) (total : Nat) (p : PendingLoad)
    (d : String × AjaxResult) : PendingLoad :=
  let store := saveFile (coerceResponse d.2) d.1 validLocale p.store
  let cnt := p.filesLoadedCount + 1
  { store := store
    filesLoadedCount := cnt
    callbackCalls := if cnt = total then p.callbackCalls + 1 else p.callbackCalls }

def runDeliveries (validLocale : String) (total : Nat) (p : PendingLoad)
    (ds : List (String × AjaxResult)) : PendingLoad :=
  ds.foldl (deliverOne validLocale total) p

/-! ## Concrete states used by the counterexamples and witnesses -/

/-- The state after `init({})`: all defaults. -/
def stDefault : MRState := init initialState {}

/-- An uninitialized state whose store nonetheless holds an entry; used to
show `get` reads the store without any initialization check. -/
def stUninitStore : MRState :=
  { initialState with
    properties := [("en_US", [("_default", [("greeting", "Hello")])])] }

/-- An initialized state in which module "Home" is already loaded for the
default locale. -/
def stLoaded : MRState :=
  { stDefault with properties := [("en_US", [("Home", [("k", "v")])])] }

/-- The scenario "load, let the single fetch complete with response `r`,
then load the same module again": the outcome of the second `load` call.
Each step is a source operation; the composition is the sequential
double-load the claims discuss. -/
def reloadAfterDelivery (st : MRState) (name lraw : Option String)
    (r : AjaxResult) : LoadOutcome :=
  load
    { (load st (ModuleArg.one name) lraw).state with
      properties := (deliverOne (getValidLocale lraw st.currentLocale)
        (load st (ModuleArg.one name) lraw).requests.length
        { store := (load st (ModuleArg.one name) lraw).state.properties
          filesLoadedCount := 0
          callbackCalls := 0 }
        (jsOrString name DEFAULT_MODULE_NAME, r)).store }
    (ModuleArg.one name) lraw

/-! # Lemmas -/

theorem lookupA_setA_self {α : Type} (m : List (String × α)) (k : String) (v : α) :
    lookupA (setA m k v) k = some v := by
  induction m with
  | nil => simp [setA, lookupA]
  | cons p rest ih =>
    obtain ⟨k', v'⟩ := p
    by_cases h : k' = k
    · simp [setA, h, lookupA]
    · simp [setA, h, lookupA, ih]

theorem lookupA_setA_ne {α : Type} (m : List (String × α)) (k k' : String) (v : α)
    (h : k' ≠ k) : lookupA (setA m k v) k' = lookupA m k' := by
  have hk : ¬k = k' := fun e => h e.symm
  induction m with
  | nil => simp [setA, lookupA, hk]
  | cons p rest ih =>
    obtain ⟨k0, v0⟩ := p
    by_cases h0 : k0 = k
    · subst h0
      simp [setA, lookupA, hk]
    · simp only [setA, if_neg h0]
      by_cases h1 : k0 = k'
      · simp [lookupA, h1]
      · simp [lookupA, h1, ih]

theorem lookupA_setA_isSome {α : Type} (m : List (String × α)) (k k' : String) (v : α)
    (h : (lookupA m k').isSome = true) : (lookupA (setA m k v) k').isSome = true := by
  by_cases e : k' = k
  · subst e
    simp [lookupA_setA_self]
  · rwa [lookupA_setA_ne m k k' v e]

theorem jsOrString_ne_empty (o : Option String) (d : String) (hd : d ≠ "") :
    jsOrString o d ≠ "" := by
  cases o with
  | none => simpa [jsOrString]
  | some s =>
    by_cases h : s = "" <;> simp [jsOrString, h, hd]

theorem replaceFirstHyphen_length (l : List Char) :
    (replaceFirstHyphen l).length = l.length := by
  induction l with
  | nil => rfl
  | cons c rest ih =>
    by_cases h : c = '-' <;> simp [replaceFirstHyphen, h, ih]

theorem getValidLocale_ne_empty (locale : Option String) (cur : String)
    (h : cur ≠ "") : getValidLocale locale cur ≠ "" := by
  have hne : jsOrString locale cur ≠ "" := jsOrString_ne_empty locale cur h
  unfold getValidLocale
  intro e
  apply hne
  have : (replaceFirstHyphen (jsOrString locale cur).data).length = 0 := by
    rw [show replaceFirstHyphen (jsOrString locale cur).data = ([] : List Char) from
      congrArg String.data e]
    rfl
  rw [replaceFirstHyphen_length] at this
  have : (jsOrString locale cur).data = [] := List.length_eq_zero.mp this
  exact congrArg String.mk this

theorem dropWhile_eq_self_of_all {l : List Char} {p : Char → Bool}
    (h : ∀ c ∈ l, p c = false) : l.dropWhile p = l := by
  cases l with
  | nil => rfl
  | cons c rest => simp [List.dropWhile_cons, h c (by simp)]

theorem trimChars_eq_self {l : List Char}
    (h : ∀ c ∈ l, c.isWhitespace = false) : trimChars l = l := by
  unfold trimChars
  rw [dropWhile_eq_self_of_all h]
  rw [dropWhile_eq_self_of_all (fun c hc => h c (List.mem_reverse.mp hc))]
  exact List.reverse_reverse l

theorem splitNl_of_not_mem {l : List Char} (h : '\n' ∉ l) : splitNl l = [l] := by
  induction l with
  | nil => rfl
  | cons c rest ih =>
    have hc : ¬(c = '\n') := fun e => h (by simp [e])
    have hr : '\n' ∉ rest := fun e => h (by simp [e])
    simp [splitNl, hc, ih hr]

/-! Digits of a numeric status coerced by `'' + status`. -/

theorem digitChar_isDigit {m : Nat} (h : m < 10) : (Nat.digitChar m).isDigit = true := by
  interval_cases m <;> decide

theorem toDigitsCore_all_digits (fuel : Nat) :
    ∀ (n : Nat) (ds : List Char), (∀ c ∈ ds, c.isDigit = true) →
      ∀ c ∈ Nat.toDigitsCore 10 fuel n ds, c.isDigit = true := by
  induction fuel with
  | zero => intro n ds h c hc; exact h c hc
  | succ fuel ih =>
    intro n ds h c hc
    unfold Nat.toDigitsCore at hc
    by_cases h0 : n / 10 = 0
    · rw [if_pos h0] at hc
      rcases List.mem_cons.mp hc with e | hm
      · rw [e]; exact digitChar_isDigit (Nat.mod_lt n (by omega))
      · exact h c hm
    · rw [if_neg h0] at hc
      refine ih (n / 10) (Nat.digitChar (n % 10) :: ds) ?_ c hc
      intro c' hc'
      rcases List.mem_cons.mp hc' with e | hm
      · rw [e]; exact digitChar_isDigit (Nat.mod_lt n (by omega))
      · exact h c' hm

theorem repr_all_digits (n : Nat) : ∀ c ∈ (Nat.repr n).data, c.isDigit = true := by
  intro c hc
  exact toDigitsCore_all_digits (n + 1) n [] (by simp) c hc

theorem toDigitsCore_ne_nil_of_ne_nil (fuel : Nat) :
    ∀ (n : Nat) (ds : List Char), ds ≠ [] → Nat.toDigitsCore 10 fuel n ds ≠ [] := by
  induction fuel with
  | zero => intro n ds h; exact h
  | succ fuel ih =>
    intro n ds h
    unfold Nat.toDigitsCore
    by_cases h0 : n / 10 = 0
    · simp [h0]
    · rw [if_neg h0]
      exact ih (n / 10) _ (by simp)

theorem repr_ne_empty (n : Nat) : Nat.repr n ≠ "" := by
  intro e
  have hd : (Nat.repr n).data = [] := congrArg String.data e
  unfold Nat.repr Nat.toDigits at hd
  revert hd
  show Nat.toDigitsCore 10 (n + 1) n [] ≠ []
  unfold Nat.toDigitsCore
  by_cases h0 : n / 10 = 0
  · simp [h0]
  · rw [if_neg h0]
    exact toDigitsCore_ne_nil_of_ne_nil n (n / 10) _ (by simp)

theorem isDigit_ne (c x : Char) (h : c.isDigit = true) (hx : x.isDigit = false) :
    c ≠ x := by
  intro e
  rw [e, hx] at h
  exact Bool.false_ne_true h

theorem isDigit_not_ws (c : Char) (h : c.isDigit = true) : c.isWhitespace = false := by
  cases hq : c.isWhitespace
  · rfl
  · exfalso
    have : ((c = ' ' ∨ c = '\t') ∨ c = '\r') ∨ c = '\n' := by
      simpa [Char.isWhitespace] using hq
    rcases this with ((e | e) | e) | e <;> (subst e; exact absurd h (by decide))

/-! Lemmas about the line-match engine. -/

theorem jsLineMatchAux_of_not_mem {l : List Char} (h : '=' ∉ l) :
    ∀ acc, jsLineMatchAux acc l = none := by
  induction l with
  | nil => intro acc; rfl
  | cons c rest ih =>
    intro acc
    have hc : ¬(c = '=') := fun e => h (by simp [e])
    have hr : '=' ∉ rest := fun e => h (by simp [e])
    simp [jsLineMatchAux, hc, ih hr]

theorem jsLineMatchAux_clean {l : List Char}
    (hclean : ∀ c ∈ l, isJsLineTerminator c = false) (hmem : '=' ∈ l) :
    ∀ acc, jsLineMatchAux acc l =
      some (acc.reverse ++ l.takeWhile (· != '='), (l.dropWhile (· != '=')).tail) := by
  induction l with
  | nil => exact absurd hmem (by simp)
  | cons c rest ih =>
    intro acc
    by_cases hc : c = '='
    · subst hc
      have hall : rest.all (fun d => !isJsLineTerminator d) = true := by
        rw [List.all_eq_true]
        intro d hd
        simp [hclean d (by simp [hd])]
      simp [jsLineMatchAux, hall, List.takeWhile, List.dropWhile]
    · have hmem' : '=' ∈ rest := by
        rcases List.mem_cons.mp hmem with e | hm
        · exact absurd e.symm hc
        · exact hm
      have hclean' : ∀ d ∈ rest, isJsLineTerminator d = false :=
        fun d hd => hclean d (by simp [hd])
      have hbne : (c != '=') = true := by simp [hc]
      simp only [jsLineMatchAux, if_neg hc, ih hclean' hmem', List.takeWhile, hbne,
        List.dropWhile]
      simp

/-- A non-empty all-digit string (the coerced numeric fetch status) is a
single invalid line. -/
theorem parseLine_digits (s : String) (hne : s ≠ "")
    (h : ∀ c ∈ s.data, c.isDigit = true) : parseLine s = LineResult.invalid := by
  have htrim : trimChars s.data = s.data :=
    trimChars_eq_self (fun c hc => isDigit_not_ws c (h c hc))
  have hnotnil : s.data ≠ [] := by
    intro e
    apply hne
    cases s with
    | mk data =>
      show String.mk data = ""
      rw [show data = ([] : List Char) from e]
  have hnomatch : jsLineMatch (s.data) = none := by
    refine jsLineMatchAux_of_not_mem ?_ []
    intro hm
    exact isDigit_ne '=' '=' (h '=' hm) (by decide) rfl
  have hhead : s.data.head? ≠ some '#' := by
    cases hd : s.data with
    | nil => exact absurd hd hnotnil
    | cons c rest =>
      simp only [List.head?]
      intro e
      have hc : c = '#' := by injection e
      subst hc
      exact isDigit_ne '#' '#' (h '#' (by simp [hd])) (by decide) rfl
  unfold parseLine
  rw [htrim, if_neg hnotnil, if_neg hhead, hnomatch]

/-! Lemmas about saveFile. -/

theorem saveFile_empty (module locale : String) (props : Store) :
    saveFile "" module locale props = props := rfl

theorem lookupA_saveFile_ne (text module locale : String) (props : Store)
    (l : String) (h : l ≠ locale) :
    lookupA (saveFile text module locale props) l = lookupA props l := by
  by_cases htext : text = ""
  · rw [htext, saveFile_empty]
  · simp only [saveFile, if_neg htext]
    exact lookupA_setA_ne _ _ _ _ h

theorem lookupA_saveFile_self (text module locale : String) (props : Store)
    (htext : text ≠ "") :
    lookupA (saveFile text module locale props) locale =
      some (setA (getOrA props locale []) module
        (((splitNl text.data).map String.mk).foldl processLine
          (getOrA (getOrA props locale []) module []))) := by
  simp only [saveFile, if_neg htext]
  exact lookupA_setA_self _ _ _

theorem foldl_processLine_isSome (lines : List String) :
    ∀ (m : ModuleMap) (k : String), (lookupA m k).isSome = true →
      (lookupA (lines.foldl processLine m) k).isSome = true := by
  induction lines with
  | nil => intro m k h; exact h
  | cons line rest ih =>
    intro m k h
    refine ih (processLine m line) k ?_
    unfold processLine
    cases parseLine line with
    | entry k' v' => exact lookupA_setA_isSome m k' k v' h
    | skip => exact h
    | invalid => exact h

/-! Lemmas about isModuleLoaded. -/

theorem isModuleLoaded_eq_true_iff (props : Store) (m l : String) :
    isModuleLoaded props m l = true ↔
      m ≠ "" ∧ l ≠ "" ∧ storeHasModule props l m = true := by
  unfold isModuleLoaded
  split_ifs with h
  · exact ⟨fun hs => ⟨h.1, h.2, hs⟩, fun hx => hx.2.2⟩
  · constructor
    · intro hf; exact absurd hf (by simp)
    · intro hx; exact absurd ⟨hx.1, hx.2.1⟩ h

theorem saveFile_isModuleLoaded (text module locale : String) (props : Store)
    (htext : text ≠ "") (hm : module ≠ "") (hl : locale ≠ "") :
    isModuleLoaded (saveFile text module locale props) module locale = true := by
  rw [isModuleLoaded_eq_true_iff]
  refine ⟨hm, hl, ?_⟩
  unfold storeHasModule
  rw [lookupA_saveFile_self text module locale props htext]
  show (lookupA (setA (getOrA props locale []) module
      (List.foldl processLine (getOrA (getOrA props locale []) module [])
        (List.map String.mk (splitNl text.data)))) module).isSome = true
  rw [lookupA_setA_self]
  rfl

/-! The completion counter (source lines 299-314). -/

theorem runDeliveries_counts (vl : String) (total : Nat)
    (ds : List (String × AjaxResult)) :
    ∀ p : PendingLoad,
      (runDeliveries vl total p ds).filesLoadedCount =
        p.filesLoadedCount + ds.length ∧
      (runDeliveries vl total p ds).callbackCalls = p.callbackCalls +
        (if p.filesLoadedCount < total ∧ total ≤ p.filesLoadedCount + ds.length
          then 1 else 0) := by
  induction ds with
  | nil =>
    intro p
    constructor
    · rfl
    · show p.callbackCalls = p.callbackCalls + _
      simp only [List.length_nil]
      split_ifs with h
      · omega
      · omega
  | cons d rest ih =>
    intro p
    have e : runDeliveries vl total p (d :: rest) =
        runDeliveries vl total (deliverOne vl total p d) rest := rfl
    rw [e]
    obtain ⟨h1, h2⟩ := ih (deliverOne vl total p d)
    have hc : (deliverOne vl total p d).filesLoadedCount =
        p.filesLoadedCount + 1 := rfl
    have hcb : (deliverOne vl total p d).callbackCalls =
        if p.filesLoadedCount + 1 = total then p.callbackCalls + 1
        else p.callbackCalls := rfl
    constructor
    · rw [h1, hc, List.length_cons]; omega
    · rw [h2, hc, hcb, List.length_cons]
      split_ifs <;> omega

/-! Unfolding lemmas for the three branches of load. -/

theorem load_invalid (st : MRState) (marg : ModuleArg) (lraw : Option String)
    (h : st.validConfiguration = false) :
    load st marg lraw =
      { state := st
        requests := []
        callbackCalls := 0
        logs := logEvents st.debugMode
          "Invalid configuration - Invoke init method with proper configuration"
          true } := by
  simp [load, h]

theorem load_nothing (st : MRState) (marg : ModuleArg) (lraw : Option String)
    (h : st.validConfiguration = true)
    (hempty : modulesToLoadOf st marg (getValidLocale lraw st.currentLocale) = []) :
    load st marg lraw =
      { state := st, requests := [], callbackCalls := 1, logs := [] } := by
  simp [load, h, hempty]

theorem load_fetch (st : MRState) (marg : ModuleArg) (lraw : Option String)
    (h : st.validConfiguration = true)
    (hne : modulesToLoadOf st marg (getValidLocale lraw st.currentLocale) ≠ []) :
    load st marg lraw =
      { state := { st with properties := setA st.properties (getValidLocale lraw st.currentLocale) (getOrA st.properties (getValidLocale lraw st.currentLocale) []) }
        requests := (modulesToLoadOf st marg (getValidLocale lraw st.currentLocale)).map
          (fun modName => (modName, st.filePath
            ++ st.fileNameResolver modName (fileLocaleOf st lraw)
            ++ st.fileExtension))
        callbackCalls := 0
        logs := [] } := by
  have hne' : (modulesToLoadOf st marg (getValidLocale lraw st.currentLocale)).isEmpty
      = false := by
    cases hq : modulesToLoadOf st marg (getValidLocale lraw st.currentLocale) with
    | nil => exact absurd hq hne
    | cons a l => rfl
  simp [load, h, hne']

/-! Existential views of the composite store reads. -/

theorem storeHasModule_iff (props : Store) (l m : String) :
    storeHasModule props l m = true ↔
      ∃ lm, lookupA props l = some lm ∧ (lookupA lm m).isSome = true := by
  unfold storeHasModule
  cases hq : lookupA props l <;> simp [hq]

theorem storeValue_isSome_iff (props : Store) (l m k : String) :
    (storeValue props l m k).isSome = true ↔
      ∃ lm mm, lookupA props l = some lm ∧ lookupA lm m = some mm ∧
        (lookupA mm k).isSome = true := by
  unfold storeValue
  cases hq : lookupA props l with
  | none => simp [hq]
  | some lm =>
    cases hq2 : lookupA lm m <;> simp [hq, hq2]

/-! Presence of a module entry / key is preserved by saveFile and by the
synchronous part of load. -/

theorem storeHasModule_saveFile (text mod loc : String) (props : Store)
    (l m : String) (h : storeHasModule props l m = true) :
    storeHasModule (saveFile text mod loc props) l m = true := by
  by_cases htext : text = ""
  · rw [htext, saveFile_empty]; exact h
  · obtain ⟨lm, hlm, hm⟩ := (storeHasModule_iff props l m).mp h
    by_cases hl : l = loc
    · subst hl
      rw [storeHasModule_iff]
      refine ⟨_, lookupA_saveFile_self text mod l props htext, ?_⟩
      unfold getOrA
      rw [hlm]
      by_cases hmm : m = mod
      · subst hmm
        rw [lookupA_setA_self]
        rfl
      · show (lookupA (setA lm mod _) m).isSome = true
        rw [lookupA_setA_ne _ _ _ _ hmm]
        exact hm
    · rw [storeHasModule_iff]
      exact ⟨lm, by rw [lookupA_saveFile_ne _ _ _ _ _ hl]; exact hlm, hm⟩

theorem storeValue_saveFile (text mod loc : String) (props : Store)
    (l m k : String) (h : (storeValue props l m k).isSome = true) :
    (storeValue (saveFile text mod loc props) l m k).isSome = true := by
  by_cases htext : text = ""
  · rw [htext, saveFile_empty]; exact h
  · obtain ⟨lm, mm, hlm, hmm, hk⟩ := (storeValue_isSome_iff props l m k).mp h
    by_cases hl : l = loc
    · subst hl
      rw [storeValue_isSome_iff]
      by_cases hmmod : m = mod
      · subst hmmod
        have hbase : getOrA (getOrA props l []) m [] = mm := by
          simp [getOrA, hlm, hmm]
        refine ⟨_, _, lookupA_saveFile_self text m l props htext,
          lookupA_setA_self _ _ _, ?_⟩
        rw [hbase]
        exact foldl_processLine_isSome _ mm k hk
      · refine ⟨_, mm, lookupA_saveFile_self text mod l props htext, ?_, hk⟩
        show lookupA (setA (getOrA props l []) mod _) m = some mm
        rw [lookupA_setA_ne _ _ _ _ hmmod]
        simp [getOrA, hlm, hmm]
    · rw [storeValue_isSome_iff]
      exact ⟨lm, mm, by rw [lookupA_saveFile_ne _ _ _ _ _ hl]; exact hlm, hmm, hk⟩

theorem load_state_properties (st : MRState) (marg : ModuleArg)
    (lraw : Option String) :
    (load st marg lraw).state.properties = st.properties ∨
    (load st marg lraw).state.properties =
      setA st.properties (getValidLocale lraw st.currentLocale)
        (getOrA st.properties (getValidLocale lraw st.currentLocale) []) := by
  cases hv : st.validConfiguration with
  | false => left; rw [load_invalid st marg lraw hv]
  | true =>
    by_cases hempty :
        modulesToLoadOf st marg (getValidLocale lraw st.currentLocale) = []
    · left; rw [load_nothing st marg lraw hv hempty]
    · right; rw [load_fetch st marg lraw hv hempty]

theorem lookupA_setA_getOr (props : Store) (vl l : String) :
    lookupA props l = none ∨
    lookupA (setA props vl (getOrA props vl [])) l = lookupA props l := by
  by_cases hl : l = vl
  · subst hl
    cases hq : lookupA props l with
    | none => left; rfl
    | some lm =>
      right
      rw [lookupA_setA_self]
      simp [getOrA, hq]
  · right
    exact lookupA_setA_ne _ _ _ _ hl

theorem storeHasModule_setA_getOr (props : Store) (vl l m : String)
    (h : storeHasModule props l m = true) :
    storeHasModule (setA props vl (getOrA props vl [])) l m = true := by
  rcases lookupA_setA_getOr props vl l with hnone | heq
  · rw [storeHasModule_iff] at h
    obtain ⟨lm, hlm, _⟩ := h
    rw [hnone] at hlm
    cases hlm
  · rw [storeHasModule_iff] at h ⊢
    obtain ⟨lm, hlm, hm⟩ := h
    exact ⟨lm, by rw [heq]; exact hlm, hm⟩

theorem storeValue_setA_getOr (props : Store) (vl l m k : String)
    (h : (storeValue props l m k).isSome = true) :
    (storeValue (setA props vl (getOrA props vl [])) l m k).isSome = true := by
  rcases lookupA_setA_getOr props vl l with hnone | heq
  · rw [storeValue_isSome_iff] at h
    obtain ⟨lm, mm, hlm, _, _⟩ := h
    rw [hnone] at hlm
    cases hlm
  · rw [storeValue_isSome_iff] at h ⊢
    obtain ⟨lm, mm, hlm, hmm, hk⟩ := h
    exact ⟨lm, mm, by rw [heq]; exact hlm, hmm, hk⟩

/-! # Claims -/

/-- C10 (confirmed): every call of `init` — first or later — leaves the
resource store untouched: `init` only rewrites the configuration fields
and resets `currentLocale` to the newly computed default locale, and
`properties` is never read or written by it. -/
theorem C10_confirmed (st : MRState) (cfg cfg2 : InitConfig) :
    (init st cfg).properties = st.properties ∧
    (init (init st cfg) cfg2).properties = st.properties ∧
    (init st cfg).currentLocale = (init st cfg).defaultLocale ∧
    (init st cfg).validConfiguration = true ∧
    (init st cfg).defaultLocale = getValidLocale cfg.defaultLocale st.currentLocale ∧
    (init st cfg).debugMode = cfg.debugMode.getD false :=
  ⟨rfl, rfl, rfl, rfl, rfl, rfl⟩

/-- C9 (confirmed): the store only grows.  `saveFile` (the parser) never
removes a (locale, module) entry nor deletes a key; the synchronous part
of `load` never removes either; `init` and `setCurrentLocale` do not touch
the store at all; and re-loading an already-loaded module/locale returns
the state unchanged. -/
theorem C9_confirmed :
    (∀ (text mod loc : String) (props : Store) (l m : String),
       storeHasModule props l m = true →
       storeHasModule (saveFile text mod loc props) l m = true) ∧
    (∀ (text mod loc : String) (props : Store) (l m k : String),
       (storeValue props l m k).isSome = true →
       (storeValue (saveFile text mod loc props) l m k).isSome = true) ∧
    (∀ (st : MRState) (marg : ModuleArg) (lraw : Option String) (l m : String),
       storeHasModule st.properties l m = true →
       storeHasModule (load st marg lraw).state.properties l m = true) ∧
    (∀ (st : MRState) (marg : ModuleArg) (lraw : Option String) (l m k : String),
       (storeValue st.properties l m k).isSome = true →
       (storeValue (load st marg lraw).state.properties l m k).isSome = true) ∧
    (∀ (st : MRState) (cfg : InitConfig), (init st cfg).properties = st.properties) ∧
    (∀ (st : MRState) (lo : Option String),
       (setCurrentLocale st lo).properties = st.properties) ∧
    (∀ (st : MRState) (name lraw : Option String),
       st.validConfiguration = true →
       isModuleLoaded st.properties (jsOrString name DEFAULT_MODULE_NAME)
         (getValidLocale lraw st.currentLocale) = true →
       (load st (ModuleArg.one name) lraw).state = st) := by
  refine ⟨storeHasModule_saveFile, storeValue_saveFile, ?_, ?_, ?_, ?_, ?_⟩
  · intro st marg lraw l m h
    rcases load_state_properties st marg lraw with he | he
    · rw [he]; exact h
    · rw [he]; exact storeHasModule_setA_getOr _ _ _ _ h
  · intro st marg lraw l m k h
    rcases load_state_properties st marg lraw with he | he
    · rw [he]; exact h
    · rw [he]; exact storeValue_setA_getOr _ _ _ _ _ h
  · intro st cfg; rfl
  · intro st lo
    cases lo with
    | none => rfl
    | some l =>
      by_cases hl : l = ""
      · simp [setCurrentLocale, hl]
      · simp [setCurrentLocale, hl]
  · intro st name lraw hv hloaded
    have hempty : modulesToLoadOf st (ModuleArg.one name)
        (getValidLocale lraw st.currentLocale) = [] := by
      simp [modulesToLoadOf, hloaded]
    rw [load_nothing st (ModuleArg.one name) lraw hv hempty]

/-- C9 witness: the hypothesis-bearing conjuncts applied at concrete
inputs. -/
theorem C9_witness :
    storeHasModule (saveFile "x=1" "M" "L" [("L0", [("M0", [("k", "v")])])])
      "L0" "M0" = true ∧
    (load stLoaded (ModuleArg.one (some "Home")) none).state = stLoaded :=
  ⟨C9_confirmed.1 "x=1" "M" "L" [("L0", [("M0", [("k", "v")])])] "L0" "M0" (by decide),
   C9_confirmed.2.2.2.2.2.2 stLoaded (some "Home") none (by decide) (by decide)⟩

/-- C3 (confirmed): when a `load` call issues `n ≥ 1` fetches, the
completion callback runs zero times synchronously, runs exactly once
after all `n` completions have been delivered — in any order, failures
counted exactly like successes — and has run zero times after any proper
prefix of the deliveries. -/
theorem C3_confirmed (st : MRState) (marg : ModuleArg) (lraw : Option String)
    (ds : List (String × AjaxResult)) (p0 : Store)
    (hreq : (load st marg lraw).requests ≠ [])
    (hlen : ds.length = (load st marg lraw).requests.length) :
    (load st marg lraw).callbackCalls = 0 ∧
    (runDeliveries (getValidLocale lraw st.currentLocale)
        (load st marg lraw).requests.length
        { store := p0, filesLoadedCount := 0, callbackCalls := 0 } ds).callbackCalls
      = 1 ∧
    ∀ k, k < ds.length →
      (runDeliveries (getValidLocale lraw st.currentLocale)
          (load st marg lraw).requests.length
          { store := p0, filesLoadedCount := 0, callbackCalls := 0 }
          (ds.take k)).callbackCalls = 0 := by
  have hcb0 : (load st marg lraw).callbackCalls = 0 := by
    cases hv : st.validConfiguration with
    | false => rw [load_invalid st marg lraw hv]
    | true =>
      by_cases hempty : modulesToLoadOf st marg (getValidLocale lraw st.currentLocale)
          = []
      · exfalso
        apply hreq
        rw [load_nothing st marg lraw hv hempty]
      · rw [load_fetch st marg lraw hv hempty]
  have hn : 1 ≤ (load st marg lraw).requests.length := by
    cases hq : (load st marg lraw).requests with
    | nil => exact absurd hq hreq
    | cons a l => rw [List.length_cons]; omega
  refine ⟨hcb0, ?_, ?_⟩
  · obtain ⟨h1, h2⟩ := runDeliveries_counts (getValidLocale lraw st.currentLocale)
      (load st marg lraw).requests.length ds
      { store := p0, filesLoadedCount := 0, callbackCalls := 0 }
    rw [h2]
    have hcond : (0 : Nat) < (load st marg lraw).requests.length ∧
        (load st marg lraw).requests.length ≤ 0 + ds.length := ⟨by omega, by omega⟩
    rw [if_pos hcond]
  · intro k hk
    obtain ⟨h1, h2⟩ := runDeliveries_counts (getValidLocale lraw st.currentLocale)
      (load st marg lraw).requests.length (ds.take k)
      { store := p0, filesLoadedCount := 0, callbackCalls := 0 }
    rw [h2]
    have hcond : ¬((0 : Nat) < (load st marg lraw).requests.length ∧
        (load st marg lraw).requests.length ≤ 0 + (ds.take k).length) := by
      rw [List.length_take]
      omega
    rw [if_neg hcond]

/-- C3 witness: a concrete two-module load, deliveries arriving in the
opposite order, one of them a failure. -/
theorem C3_witness :
    (runDeliveries (getValidLocale none stDefault.currentLocale)
        (load stDefault (ModuleArg.many ["A", "B"]) none).requests.length
        { store := [], filesLoadedCount := 0, callbackCalls := 0 }
        [("B", AjaxResult.failure 404), ("A", AjaxResult.success "x=1")]).callbackCalls
      = 1 ∧
    (runDeliveries (getValidLocale none stDefault.currentLocale)
        (load stDefault (ModuleArg.many ["A", "B"]) none).requests.length
        { store := [], filesLoadedCount := 0, callbackCalls := 0 }
        (([("B", AjaxResult.failure 404), ("A", AjaxResult.success "x=1")]
          : List (String × AjaxResult)).take 1)).callbackCalls = 0 :=
  ⟨(C3_confirmed stDefault (ModuleArg.many ["A", "B"]) none
      [("B", AjaxResult.failure 404), ("A", AjaxResult.success "x=1")] []
      (by decide) (by decide)).2.1,
   (C3_confirmed stDefault (ModuleArg.many ["A", "B"]) none
      [("B", AjaxResult.failure 404), ("A", AjaxResult.success "x=1")] []
      (by decide) (by decide)).2.2 1 (by decide)⟩

/-- C5 (confirmed): `get` returns the Unicode-decoded stored value when
the (normalized locale, module) pair is loaded and the key is present;
otherwise it returns the Unicode-decoded default value when a (truthy)
one was provided, else the Unicode-decoded key.  It is a total function —
absence is a silent fallback, never an error. -/
theorem C5_confirmed (st : MRState) (key : String) (marg lraw dv : Option String) :
    (isModuleLoaded st.properties (jsOrString marg DEFAULT_MODULE_NAME)
        (getValidLocale lraw st.currentLocale) = true →
      ∀ v, lookupA (getOrA (getOrA st.properties (getValidLocale lraw st.currentLocale) [])
          (jsOrString marg DEFAULT_MODULE_NAME) []) key = some v →
        get st key marg lraw dv = convertUnicodeString v) ∧
    (isModuleLoaded st.properties (jsOrString marg DEFAULT_MODULE_NAME)
        (getValidLocale lraw st.currentLocale) = false →
      get st key marg lraw dv = convertUnicodeString (jsOrString dv key)) ∧
    (lookupA (getOrA (getOrA st.properties (getValidLocale lraw st.currentLocale) [])
        (jsOrString marg DEFAULT_MODULE_NAME) []) key = none →
      get st key marg lraw dv = convertUnicodeString (jsOrString dv key)) ∧
    (∀ d, dv = some d → d ≠ "" → jsOrString dv key = d) ∧
    ((dv = none ∨ dv = some "") → jsOrString dv key = key) := by
  refine ⟨?_, ?_, ?_, ?_, ?_⟩
  · intro hload v hv
    simp [get, hload, hv]
  · intro hnot
    simp [get, hnot]
  · intro hnone
    by_cases hload : isModuleLoaded st.properties (jsOrString marg DEFAULT_MODULE_NAME)
        (getValidLocale lraw st.currentLocale) = true
    · simp [get, hload, hnone]
    · simp [get, hload]
  · intro d hd hne
    subst hd
    simp [jsOrString, hne]
  · intro h
    rcases h with h | h <;> subst h <;> simp [jsOrString]

/-- C5 witness: a loaded key returns its stored value; a missing key with
a default returns the default; a Unicode escape is decoded. -/
theorem C5_witness :
    get stLoaded "k" (some "Home") none none = "v" ∧
    get stLoaded "missing" (some "Home") none (some "N/A") = "N/A" ∧
    get { stLoaded with properties := [("en_US", [("Home", [("cafe", "Caf\\u00e9")])])] }
      "cafe" (some "Home") none none = "Café" :=
  ⟨((C5_confirmed stLoaded "k" (some "Home") none none).1 (by decide) "v"
      (by decide)).trans (by decide),
   ((C5_confirmed stLoaded "missing" (some "Home") none (some "N/A")).1 (by decide)
      |> fun _ => ((C5_confirmed stLoaded "missing" (some "Home") none (some "N/A")).2.2.1
        (by decide)).trans (by decide)),
   ((C5_confirmed { stLoaded with properties := [("en_US", [("Home", [("cafe", "Caf\\u00e9")])])] }
      "cafe" (some "Home") none none).1 (by decide) "Caf\\u00e9" (by decide)).trans
      (by decide)⟩

/-- C7 counterexample: `get` performs NO initialization check.  On an
uninitialized state it reads the store and returns the stored value (so
it is not "aborted without reading the store"), and on an uninitialized
empty-store state it behaves exactly as after `init` — a normal silent
fallback, not an error path. -/
theorem C7_counterexample :
    stUninitStore.validConfiguration = false ∧
    get stUninitStore "greeting" none none (some "N/A") = "Hello" ∧
    get initialState "greeting" none none (some "N/A") = "N/A" ∧
    get initialState "greeting" none none (some "N/A")
      = get (init initialState {}) "greeting" none none (some "N/A") :=
  ⟨rfl, by decide, by decide, by decide⟩

/-- C7 (corrected): `load` before initialization is reported through an
alert and aborted — state unchanged, no fetch, callback never invoked —
but `get` performs no initialization check at all: its result is
independent of the `validConfiguration` flag and it proceeds as a normal
lookup. -/
theorem C7_amended (st : MRState) (marg : ModuleArg) (lraw : Option String)
    (key : String) (m l dv : Option String) (b : Bool) :
    (st.validConfiguration = false →
      (load st marg lraw).state = st ∧
      (load st marg lraw).requests = [] ∧
      (load st marg lraw).callbackCalls = 0 ∧
      LogEvent.alert
          "messageResource.js : Invalid configuration - Invoke init method with proper configuration"
        ∈ (load st marg lraw).logs) ∧
    get { st with validConfiguration := b } key m l dv = get st key m l dv := by
  constructor
  · intro hv
    rw [load_invalid st marg lraw hv]
    refine ⟨rfl, rfl, rfl, ?_⟩
    refine List.mem_append.mpr (Or.inr ?_)
    rw [if_pos rfl, List.mem_singleton]
    decide
  · rfl

/-- C7 witness: the load conjunct applied on the pristine pre-init state,
and the get conjunct instantiated there. -/
theorem C7_witness :
    (load initialState (ModuleArg.one (some "Home")) none).requests = [] ∧
    (load initialState (ModuleArg.one (some "Home")) none).callbackCalls = 0 ∧
    get { initialState with validConfiguration := true } "x" none none none
      = get initialState "x" none none none :=
  ⟨((C7_amended initialState (ModuleArg.one (some "Home")) none "x" none none none
      true).1 rfl).2.1,
   ((C7_amended initialState (ModuleArg.one (some "Home")) none "x" none none none
      true).1 rfl).2.2.1,
   (C7_amended initialState (ModuleArg.one (some "Home")) none "x" none none none
      true).2⟩

/-- C6 counterexample: a module name occurring twice in the input list and
not yet loaded is pushed twice — the fetch list has a duplicate and two
fetches are issued for the same module in one call, contradicting the
claim that duplicates are dropped. -/
theorem C6_counterexample :
    (load stDefault (ModuleArg.many ["A", "A"]) none).requests.map Prod.fst
      = ["A", "A"] ∧
    ¬((load stDefault (ModuleArg.many ["A", "A"]) none).requests.map Prod.fst).Nodup ∧
    (load stDefault (ModuleArg.many ["A", "A"]) none).requests.length = 2 :=
  ⟨by decide, by decide, by decide⟩

/-- C6 (corrected): the fetched list is exactly the input list filtered to
truthy, not-already-loaded names — falsy names and already-loaded modules
are dropped, but duplicates are NOT: an eligible name is fetched once per
occurrence in the input list. -/
theorem C6_amended (st : MRState) (names : List String) (lraw : Option String)
    (hv : st.validConfiguration = true) :
    (load st (ModuleArg.many names) lraw).requests.map Prod.fst
      = names.filter (fun m => m ≠ "" &&
          !(isModuleLoaded st.properties m (getValidLocale lraw st.currentLocale))) ∧
    (∀ m ∈ (load st (ModuleArg.many names) lraw).requests.map Prod.fst,
      m ≠ "" ∧
      isModuleLoaded st.properties m (getValidLocale lraw st.currentLocale) = false) ∧
    (∀ m, m ≠ "" →
      isModuleLoaded st.properties m (getValidLocale lraw st.currentLocale) = false →
      ((load st (ModuleArg.many names) lraw).requests.map Prod.fst).count m
        = names.count m) := by
  have hmap : (load st (ModuleArg.many names) lraw).requests.map Prod.fst
      = modulesToLoadOf st (ModuleArg.many names)
          (getValidLocale lraw st.currentLocale) := by
    by_cases hempty : modulesToLoadOf st (ModuleArg.many names)
        (getValidLocale lraw st.currentLocale) = []
    · rw [load_nothing st (ModuleArg.many names) lraw hv hempty, hempty]
      rfl
    · rw [load_fetch st (ModuleArg.many names) lraw hv hempty]
      show List.map Prod.fst (List.map _ _) = _
      rw [List.map_map]
      rw [show (Prod.fst ∘ fun modName => (modName,
          st.filePath ++ st.fileNameResolver modName (fileLocaleOf st lraw)
            ++ st.fileExtension)) = (id : String → String) from funext fun m => rfl]
      exact List.map_id _
  refine ⟨by rw [hmap]; rfl, ?_, ?_⟩
  · intro m hm
    rw [hmap] at hm
    unfold modulesToLoadOf at hm
    obtain ⟨hmem, hcond⟩ := List.mem_filter.mp hm
    simp only [Bool.and_eq_true, Bool.not_eq_true', decide_eq_true_eq] at hcond
    exact hcond
  · intro m hne hnot
    rw [hmap]
    show (names.filter _).count m = names.count m
    refine List.count_filter ?_
    simp [hne, hnot]

/-- C6 witness: the amended characterization on a concrete call with a
falsy name, an already-loaded module, and a duplicated fresh name. -/
theorem C6_witness :
    (load stLoaded (ModuleArg.many ["", "Home", "B", "B"]) none).requests.map Prod.fst
      = ["B", "B"] ∧
    ((load stLoaded (ModuleArg.many ["", "Home", "B", "B"]) none).requests.map
        Prod.fst).count "B" = 2 :=
  ⟨((C6_amended stLoaded ["", "Home", "B", "B"] none (by decide)).1).trans (by decide),
   ((C6_amended stLoaded ["", "Home", "B", "B"] none (by decide)).2.2 "B" (by decide)
      (by decide)).trans (by decide)⟩

/-- String eta: a string is the string of its character list. -/
theorem string_mk_data (s : String) : String.mk s.data = s := rfl

/-- C1 counterexample: delivering a failed fetch (status 404) for module
"Home" leaves the module PRESENT in the store for the requested locale —
`saveFile` creates `properties[locale][module]` before parsing, and the
coerced status text "404" is truthy — contradicting the claim that the
module remains absent; `isModuleLoaded` subsequently reports it loaded. -/
theorem C1_counterexample :
    (deliverOne "en_US" 1
        { store := (load stDefault (ModuleArg.one (some "Home")) none).state.properties
          filesLoadedCount := 0
          callbackCalls := 0 }
        ("Home", AjaxResult.failure 404)).store = [("en_US", [("Home", [])])] ∧
    isModuleLoaded
      (deliverOne "en_US" 1
        { store := (load stDefault (ModuleArg.one (some "Home")) none).state.properties
          filesLoadedCount := 0
          callbackCalls := 0 }
        ("Home", AjaxResult.failure 404)).store "Home" "en_US" = true :=
  ⟨by decide, by decide⟩

/-- C1 (corrected): after a fetch failure the numeric status is coerced to
its decimal digits, which parse as one invalid line: the entry of the module
for the normalized locale becomes present but EMPTY — no key is stored —
so every later get for a key of that module and locale still falls back
to the Unicode-decoded default value (or key). -/
theorem C1_amended (status : Nat) (props : Store) (mod loc : String)
    (st : MRState) (key : String) (marg lraw dv : Option String)
    (habsent : (lookupA props loc).bind (fun lm => lookupA lm mod) = none)
    (hprops : st.properties
      = saveFile (coerceResponse (AjaxResult.failure status)) mod loc props)
    (hmod : jsOrString marg DEFAULT_MODULE_NAME = mod)
    (hloc : getValidLocale lraw st.currentLocale = loc) :
    (lookupA st.properties loc).bind (fun lm => lookupA lm mod) = some [] ∧
    get st key marg lraw dv = convertUnicodeString (jsOrString dv key) := by
  have hdig : ∀ c ∈ (Nat.repr status).data, c.isDigit = true := repr_all_digits status
  have hcoerce : coerceResponse (AjaxResult.failure status) = Nat.repr status := rfl
  have hne : coerceResponse (AjaxResult.failure status) ≠ "" := by
    rw [hcoerce]; exact repr_ne_empty status
  have hnomem : '\n' ∉ (Nat.repr status).data :=
    fun hm => isDigit_ne '\n' '\n' (hdig _ hm) (by decide) rfl
  have hsplit : splitNl (Nat.repr status).data = [(Nat.repr status).data] :=
    splitNl_of_not_mem hnomem
  have hinv : parseLine (String.mk (Nat.repr status).data) = LineResult.invalid := by
    rw [string_mk_data]
    exact parseLine_digits _ (repr_ne_empty status) hdig
  have hcur : getOrA (getOrA props loc []) mod [] = [] := by
    cases hq : lookupA props loc with
    | none => simp [getOrA, hq, lookupA]
    | some lm =>
      rw [hq] at habsent
      simp only [Option.some_bind] at habsent
      simp [getOrA, hq, habsent]
  have hmain : (lookupA st.properties loc).bind (fun lm => lookupA lm mod)
      = some [] := by
    rw [hprops, lookupA_saveFile_self _ _ _ _ hne]
    show lookupA (setA (getOrA props loc []) mod _) mod = some []
    rw [lookupA_setA_self]
    congr 1
    show ((splitNl (coerceResponse (AjaxResult.failure status)).data).map String.mk).foldl
        processLine (getOrA (getOrA props loc []) mod []) = []
    rw [hcoerce, hsplit, hcur]
    show processLine [] (String.mk (Nat.repr status).data) = []
    unfold processLine
    rw [hinv]
  refine ⟨hmain, ?_⟩
  obtain ⟨lm, hlm, hmmv⟩ : ∃ lm, lookupA st.properties loc = some lm ∧
      lookupA lm mod = some [] := by
    cases hq : lookupA st.properties loc with
    | none => rw [hq] at hmain; simp at hmain
    | some lm =>
      rw [hq] at hmain
      simp only [Option.some_bind] at hmain
      exact ⟨lm, rfl, hmain⟩
  have hmm : getOrA (getOrA st.properties (getValidLocale lraw st.currentLocale) [])
      (jsOrString marg DEFAULT_MODULE_NAME) [] = [] := by
    rw [hmod, hloc]
    simp [getOrA, hlm, hmmv]
  by_cases hload : isModuleLoaded st.properties (jsOrString marg DEFAULT_MODULE_NAME)
      (getValidLocale lraw st.currentLocale) = true
  · simp [get, hload, hmm, lookupA]
  · simp [get, hload]

/-- C1 witness: status 500 for fresh module "B"; the entry appears empty
and a later get returns the provided default. -/
theorem C1_witness :
    (lookupA (saveFile (coerceResponse (AjaxResult.failure 500)) "B" "en_US" [])
        "en_US").bind (fun lm => lookupA lm "B") = some [] ∧
    get { stDefault with
        properties := saveFile (coerceResponse (AjaxResult.failure 500)) "B" "en_US" [] }
      "anykey" (some "B") none (some "fallback") = "fallback" :=
  ⟨(C1_amended 500 [] "B" "en_US"
      { stDefault with
        properties := saveFile (coerceResponse (AjaxResult.failure 500)) "B" "en_US" [] }
      "anykey" (some "B") none (some "fallback") (by decide) rfl (by decide)
      (by decide)).1,
   ((C1_amended 500 [] "B" "en_US"
      { stDefault with
        properties := saveFile (coerceResponse (AjaxResult.failure 500)) "B" "en_US" [] }
      "anykey" (some "B") none (some "fallback") (by decide) rfl (by decide)
      (by decide)).2).trans (by decide)⟩

/-- C2 counterexample: with default locale "en_US" and the explicit
argument "en-US" (which normalizes to the default), the issued request is
built from the RAW argument — "Home_en-US.properties" — not from the
normalized locale as the claim states. -/
theorem C2_counterexample :
    (load stDefault (ModuleArg.one (some "Home")) (some "en-US")).requests
      = [("Home", "Home_en-US.properties")] ∧
    (load stDefault (ModuleArg.one (some "Home")) (some "en-US")).requests
      ≠ [("Home", "Home_en_US.properties")] :=
  ⟨by decide, by decide⟩

/-- C2 (corrected): when the normalized locale equals the default locale
the file locale is the RAW locale argument (absent or empty exactly when
the caller passed no truthy locale), and otherwise it is the normalized
locale; so an explicit argument that normalizes to the default yields a
filename built from the raw argument (e.g. "Home_en-US"), not the
normalized one. -/
theorem C2_amended (st : MRState) (lraw : Option String) (name : String)
    (hcur : st.currentLocale ≠ "") :
    (getValidLocale lraw st.currentLocale = st.defaultLocale →
      fileLocaleOf st lraw = lraw) ∧
    (getValidLocale lraw st.currentLocale ≠ st.defaultLocale →
      fileLocaleOf st lraw = some (getValidLocale lraw st.currentLocale)) ∧
    ((fileLocaleOf st lraw = none ∨ fileLocaleOf st lraw = some "") ↔
      (getValidLocale lraw st.currentLocale = st.defaultLocale ∧
        (lraw = none ∨ lraw = some ""))) ∧
    (∀ l, lraw = some l → l ≠ "" →
      getValidLocale lraw st.currentLocale = st.defaultLocale →
      defaultFileNameResolver name (fileLocaleOf st lraw) = name ++ "_" ++ l) ∧
    (getValidLocale lraw st.currentLocale ≠ st.defaultLocale →
      defaultFileNameResolver name (fileLocaleOf st lraw)
        = name ++ "_" ++ getValidLocale lraw st.currentLocale) ∧
    ((lraw = none ∨ lraw = some "") →
      getValidLocale lraw st.currentLocale = st.defaultLocale →
      defaultFileNameResolver name (fileLocaleOf st lraw) = name) := by
  have hvl : getValidLocale lraw st.currentLocale ≠ "" :=
    getValidLocale_ne_empty lraw st.currentLocale hcur
  refine ⟨?_, ?_, ?_, ?_, ?_, ?_⟩
  · intro h
    unfold fileLocaleOf
    rw [if_pos h]
  · intro h
    unfold fileLocaleOf
    rw [if_neg h]
  · constructor
    · intro hf
      unfold fileLocaleOf at hf
      by_cases h : getValidLocale lraw st.currentLocale = st.defaultLocale
      · rw [if_pos h] at hf
        exact ⟨h, hf⟩
      · rw [if_neg h] at hf
        rcases hf with hf | hf
        · exact absurd hf (by simp)
        · exact absurd (Option.some.inj hf) hvl
    · rintro ⟨h, hr⟩
      unfold fileLocaleOf
      rw [if_pos h]
      exact hr
  · intro l hl hlne h
    unfold fileLocaleOf
    rw [if_pos h, hl]
    simp [defaultFileNameResolver, hlne]
  · intro h
    unfold fileLocaleOf
    rw [if_neg h]
    simp [defaultFileNameResolver, hvl]
  · intro hr h
    unfold fileLocaleOf
    rw [if_pos h]
    rcases hr with hr | hr <;> subst hr <;> simp [defaultFileNameResolver]

/-- C2 witness: the three filename cases on concrete inputs, including the
raw "en-US" suffix. -/
theorem C2_witness :
    fileLocaleOf stDefault (some "en-US") = some "en-US" ∧
    defaultFileNameResolver "Home" (fileLocaleOf stDefault (some "en-US"))
      = "Home_en-US" ∧
    fileLocaleOf stDefault (some "fr-FR") = some "fr_FR" ∧
    defaultFileNameResolver "Home" (fileLocaleOf stDefault none) = "Home" :=
  ⟨(C2_amended stDefault (some "en-US") "Home" (by decide)).1 (by decide),
   ((C2_amended stDefault (some "en-US") "Home" (by decide)).2.2.2.1 "en-US" rfl
      (by decide) (by decide)).trans (by decide),
   ((C2_amended stDefault (some "fr-FR") "Home" (by decide)).2.1 (by decide)).trans
      (by decide),
   (C2_amended stDefault none "Home" (by decide)).2.2.2.2.2 (Or.inl rfl) (by decide)⟩

theorem load_one_after_loaded (st2 : MRState) (name lraw : Option String)
    (hv2 : st2.validConfiguration = true)
    (hloaded : isModuleLoaded st2.properties (jsOrString name DEFAULT_MODULE_NAME)
      (getValidLocale lraw st2.currentLocale) = true) :
    (load st2 (ModuleArg.one name) lraw).requests = [] ∧
    (load st2 (ModuleArg.one name) lraw).callbackCalls = 1 ∧
    (load st2 (ModuleArg.one name) lraw).state = st2 := by
  have hempty : modulesToLoadOf st2 (ModuleArg.one name)
      (getValidLocale lraw st2.currentLocale) = [] := by
    simp [modulesToLoadOf, hloaded]
  rw [load_nothing st2 (ModuleArg.one name) lraw hv2 hempty]
  exact ⟨rfl, rfl, rfl⟩

/-- C8 counterexample: an empty success response is falsy after coercion,
so `saveFile` stores nothing and creates no module entry; loading the same
module again in sequence issues a SECOND fetch — two fetches in total for
the same module/locale, contradicting "at most once". -/
theorem C8_counterexample :
    (load stDefault (ModuleArg.one (some "A")) none).requests
      = [("A", "A.properties")] ∧
    (reloadAfterDelivery stDefault (some "A") none (AjaxResult.success "")).requests
      = [("A", "A.properties")] :=
  ⟨by decide, by decide⟩

/-- C8 (corrected): loading an already-present module/locale issues no
fetch, synchronously invokes the callback once and leaves the state
unchanged; and a sequential double-load fetches at most once PROVIDED the
coerced text of the first delivery is non-empty (any failure status, or a
non-empty body) — an empty response body leaves the module absent, and
the second load fetches again. -/
theorem C8_amended (st : MRState) (name lraw : Option String) (r : AjaxResult)
    (hv : st.validConfiguration = true) :
    (isModuleLoaded st.properties (jsOrString name DEFAULT_MODULE_NAME)
        (getValidLocale lraw st.currentLocale) = true →
      (load st (ModuleArg.one name) lraw).requests = [] ∧
      (load st (ModuleArg.one name) lraw).callbackCalls = 1 ∧
      (load st (ModuleArg.one name) lraw).state = st) ∧
    (isModuleLoaded st.properties (jsOrString name DEFAULT_MODULE_NAME)
        (getValidLocale lraw st.currentLocale) = false →
      getValidLocale lraw st.currentLocale ≠ "" →
      coerceResponse r ≠ "" →
      (load st (ModuleArg.one name) lraw).requests.length = 1 ∧
      (reloadAfterDelivery st name lraw r).requests = [] ∧
      (reloadAfterDelivery st name lraw r).callbackCalls = 1) := by
  constructor
  · intro hloaded
    exact load_one_after_loaded st name lraw hv hloaded
  · intro hnot hvl hcr
    have hvmne : jsOrString name DEFAULT_MODULE_NAME ≠ "" :=
      jsOrString_ne_empty name DEFAULT_MODULE_NAME (by decide)
    have hmtl : modulesToLoadOf st (ModuleArg.one name)
        (getValidLocale lraw st.currentLocale)
        = [jsOrString name DEFAULT_MODULE_NAME] := by
      simp [modulesToLoadOf, hnot]
    have hne : modulesToLoadOf st (ModuleArg.one name)
        (getValidLocale lraw st.currentLocale) ≠ [] := by
      rw [hmtl]
      simp
    have hlo1 := load_fetch st (ModuleArg.one name) lraw hv hne
    have hreq1 : (load st (ModuleArg.one name) lraw).requests.length = 1 := by
      rw [hlo1]
      simp [hmtl]
    have hst1 : (load st (ModuleArg.one name) lraw).state
        = { st with properties := (setA st.properties (getValidLocale lraw st.currentLocale) (getOrA st.properties (getValidLocale lraw st.currentLocale) [])) } := by
      rw [hlo1]
    refine ⟨hreq1, ?_⟩
    unfold reloadAfterDelivery
    rw [hst1]
    have h2 := load_one_after_loaded
      { st with properties := (saveFile (coerceResponse r) (jsOrString name DEFAULT_MODULE_NAME) (getValidLocale lraw st.currentLocale) (setA st.properties (getValidLocale lraw st.currentLocale) (getOrA st.properties (getValidLocale lraw st.currentLocale) []))) }
      name lraw hv
      (saveFile_isModuleLoaded _ _ _ _ hcr hvmne hvl)
    exact ⟨h2.1, h2.2.1⟩

/-- C8 witness: a failure status makes the module "loaded", the reload
issues no fetch and calls back synchronously; plus the already-loaded
conjunct on a concrete loaded state. -/
theorem C8_witness :
    (load stLoaded (ModuleArg.one (some "Home")) none).requests = [] ∧
    (load stLoaded (ModuleArg.one (some "Home")) none).callbackCalls = 1 ∧
    (load stDefault (ModuleArg.one (some "A")) none).requests.length = 1 ∧
    (reloadAfterDelivery stDefault (some "A") none (AjaxResult.failure 404)).requests
      = [] ∧
    (reloadAfterDelivery stDefault (some "A") none
        (AjaxResult.failure 404)).callbackCalls = 1 :=
  ⟨((C8_amended stLoaded (some "Home") none (AjaxResult.failure 404) (by decide)).1
      (by decide)).1,
   ((C8_amended stLoaded (some "Home") none (AjaxResult.failure 404) (by decide)).1
      (by decide)).2.1,
   ((C8_amended stDefault (some "A") none (AjaxResult.failure 404) (by decide)).2
      (by decide) (by decide) (by decide)).1,
   ((C8_amended stDefault (some "A") none (AjaxResult.failure 404) (by decide)).2
      (by decide) (by decide) (by decide)).2.1,
   ((C8_amended stDefault (some "A") none (AjaxResult.failure 404) (by decide)).2
      (by decide) (by decide) (by decide)).2.2⟩

/-- C4 counterexample: the line "a=b\rc" — trimmed, containing '=' with
non-empty key portion "a" — stores NOTHING: the regex
`/([^=]*)=(.*)$/` cannot match because `.` does not cross the carriage
return and `$` only matches at the very end, so the line is logged
invalid, contradicting the claimed first-'=' split rule. -/
theorem C4_counterexample :
    parseLine "a=b\rc" = LineResult.invalid ∧
    saveFile "a=b\rc" "M" "L" [] = [("L", [("M", [])])] ∧
    storeValue (saveFile "a=b\rc" "M" "L" []) "L" "M" "a" = none :=
  ⟨by decide, by decide, by decide⟩

/-- C4 (corrected): for every line whose trimmed text contains no
line-terminator character (the normal case — e.g. any line of a file
split on newlines with no stray carriage returns): blank lines and
'#'-lines store nothing; a line with no '=' or an empty key portion is
classified invalid (logged) and stores nothing; otherwise the first '='
splits the trimmed line into trimmed key and trimmed value (the value may
contain '='; a missing value is the empty string).  A skipped or invalid
line leaves the fold over the remaining lines untouched, so the rest of
the file is still parsed. -/
theorem C4_amended (line : String)
    (hclean : ∀ c ∈ trimChars line.data, isJsLineTerminator c = false) :
    (trimChars line.data = [] → parseLine line = LineResult.skip) ∧
    ((trimChars line.data).head? = some '#' → parseLine line = LineResult.skip) ∧
    (trimChars line.data ≠ [] → (trimChars line.data).head? ≠ some '#' →
      '=' ∉ trimChars line.data → parseLine line = LineResult.invalid) ∧
    ((trimChars line.data).head? = some '=' → parseLine line = LineResult.invalid) ∧
    (trimChars line.data ≠ [] → (trimChars line.data).head? ≠ some '#' →
      (trimChars line.data).head? ≠ some '=' → '=' ∈ trimChars line.data →
      parseLine line = LineResult.entry
        (String.mk (trimChars ((trimChars line.data).takeWhile (· != '='))))
        (String.mk (trimChars (((trimChars line.data).dropWhile (· != '=')).tail)))) ∧
    (parseLine line = LineResult.skip ∨ parseLine line = LineResult.invalid →
      ∀ (pre post : List String) (m : ModuleMap),
        (pre ++ line :: post).foldl processLine m = (pre ++ post).foldl processLine m)
    := by
  refine ⟨?_, ?_, ?_, ?_, ?_, ?_⟩
  · intro ht
    simp [parseLine, ht]
  · intro hh
    by_cases ht : trimChars line.data = []
    · simp [parseLine, ht]
    · simp [parseLine, ht, hh]
  · intro ht hh hmem
    have hnone : jsLineMatch (trimChars line.data) = none :=
      jsLineMatchAux_of_not_mem hmem []
    simp [parseLine, ht, hh, hnone]
  · intro hd
    cases hteq : trimChars line.data with
    | nil => rw [hteq] at hd; simp at hd
    | cons c rest =>
      rw [hteq] at hd
      have hc : c = '=' := by
        simp only [List.head?] at hd
        injection hd
      subst hc
      have hmem : '=' ∈ trimChars line.data := by rw [hteq]; simp
      have hmatch := jsLineMatchAux_clean hclean hmem []
      have hh : (trimChars line.data).head? ≠ some '#' := by
        rw [hteq]
        simp
      have htne : trimChars line.data ≠ [] := by rw [hteq]; simp
      have htake : (trimChars line.data).takeWhile (· != '=') = [] := by
        rw [hteq]
        simp [List.takeWhile]
      rw [htake] at hmatch
      simp only [parseLine, jsLineMatch] at *
      simp [hmatch, htne, hh]
  · intro ht hh hd hmem
    have hmatch := jsLineMatchAux_clean hclean hmem []
    have hkne : (trimChars line.data).takeWhile (· != '=') ≠ [] := by
      cases hteq : trimChars line.data with
      | nil => exact absurd hteq ht
      | cons c rest =>
        rw [hteq] at hd
        have hc : c ≠ '=' := by
          intro e
          apply hd
          rw [e]
          rfl
        have hbne : (c != '=') = true := by simp [hc]
        simp [List.takeWhile, hbne]
    have hval : (if ((trimChars line.data).dropWhile (· != '=')).tail = []
        then ([] : List Char)
        else trimChars (((trimChars line.data).dropWhile (· != '=')).tail))
        = trimChars (((trimChars line.data).dropWhile (· != '=')).tail) := by
      by_cases hv : ((trimChars line.data).dropWhile (· != '=')).tail = []
      · rw [if_pos hv, hv]
        rfl
      · rw [if_neg hv]
    simp only [parseLine, jsLineMatch] at *
    simp [hmatch, ht, hh, hkne, hval]
  · intro h pre post m
    have hid : ∀ x : ModuleMap, processLine x line = x := by
      intro x
      unfold processLine
      rcases h with h | h <;> rw [h]
    rw [List.foldl_append, List.foldl_append, List.foldl_cons, hid]

/-- C4 witness: the parser on representative concrete lines — trimmed
key/value, comment, empty value, no '=', empty key, value containing
'='. -/
theorem C4_witness :
    parseLine " farewell = Bye " = LineResult.entry "farewell" "Bye" ∧
    parseLine "#comment" = LineResult.skip ∧
    parseLine "key=" = LineResult.entry "key" "" ∧
    parseLine "nokey" = LineResult.invalid ∧
    parseLine "=x" = LineResult.invalid ∧
    parseLine "a=b=c" = LineResult.entry "a" "b=c" :=
  ⟨((C4_amended " farewell = Bye " (by decide)).2.2.2.2.1 (by decide) (by decide)
      (by decide) (by decide)).trans (by decide),
   (C4_amended "#comment" (by decide)).2.1 (by decide),
   ((C4_amended "key=" (by decide)).2.2.2.2.1 (by decide) (by decide) (by decide)
      (by decide)).trans (by decide),
   (C4_amended "nokey" (by decide)).2.2.1 (by decide) (by decide) (by decide),
   (C4_amended "=x" (by decide)).2.2.2.1 (by decide),
   ((C4_amended "a=b=c" (by decide)).2.2.2.2.1 (by decide) (by decide) (by decide)
      (by decide)).trans (by decide)⟩

end MessageResource
